import Mathlib

/-!
Verification of the Optiroute CVRP planner (IliyanVezirski/Optiroute).

This file gives a shallow embedding, in Lean 4, of the parts of the Python
source that the checked claims are about:

* `warehouse_manager.py` — pre-allocation of customers between the solver
  set and the warehouse set (`allocate_customers`,
  `_allocate_largest_to_warehouse`);
* `cvrp_solver.py` — the OR-Tools model construction (arc-cost callbacks,
  time callback, data model), solution extraction feasibility checks, and
  the final depot reconfiguration (`_reconfigure_routes_from_depot`,
  `_optimize_route_from_depot`, `_calculate_route_from_depot`);
* `main.py` — winner selection among parallel worker solutions and the
  ordered unique-depot list.

Numeric conventions: Python floats are modelled as rationals (ℚ), Python
ints as ℤ/ℕ.  The Python `int(...)` conversion (truncation toward zero) is
`pyInt`.  Distance/duration matrices are modelled as integer-valued
functions of node indices, matching the integer matrices the solver is fed.

Several configuration fields read by `cvrp_solver.py` and
`warehouse_manager.py` are absent from the copy of `config.py` shipped in
the repository snapshot (`ortools_target_utilization`, the center-zone
options on `LocationConfig`, the discount options on `CVRPConfig`, the
`SPECIAL_BUS` member of `VehicleType`).  They are modelled here as record
fields, with the reading code translated from the source; their values are
universally quantified in the theorems.
-/

namespace Optiroute

/-- Truncation toward zero: the behavior of the Python `int(...)` conversion
applied to a real (here rational) value. -/
def pyInt (q : ℚ) : ℤ := if 0 ≤ q then ⌊q⌋ else ⌈q⌉

/-- Vehicle types. `config.py` (`VehicleType` enum) declares `INTERNAL_BUS`,
`CENTER_BUS`, `EXTERNAL_BUS`, `WAREHOUSE`, `DISABLED`; `specialBus` models the
`SPECIAL_BUS` member referenced by `cvrp_solver.py` but missing from this
copy of `config.py`. -/
inductive VehicleType where
  | internalBus
  | centerBus
  | externalBus
  | specialBus
  | warehouse
  | disabled
deriving DecidableEq, Repr

/-- A customer order (`input_handler.Customer` as consumed by the core):
stable id, volume, and the precomputed road distance from the depot in
meters (used by the far-low-volume discount callback). -/
structure Customer where
  id : ℕ
  volume : ℚ
  distanceFromDepotM : ℚ := 0
deriving DecidableEq, Repr

/-- Per-type vehicle configuration (`config.VehicleConfig`). -/
structure VehicleConfig where
  vehicleType : VehicleType
  capacity : ℤ
  count : ℕ
  maxDistanceKm : Option ℤ := none
  maxTimeHours : ℤ := 8
  serviceTimeMinutes : ℤ := 15
  enabled : Bool := true
  startLocation : Option (ℚ × ℚ) := none
  maxCustomersPerRoute : Option ℕ := none
deriving DecidableEq, Repr

/-- Warehouse configuration (`config.WarehouseConfig`).  The field
`ortoolsTargetUtilization` is read by `warehouse_manager.py`
(`self.config.ortools_target_utilization`) though it is absent from this
copy of `config.py`; it is modelled as a field here. -/
structure WarehouseConfig where
  enableWarehouse : Bool := true
  sortByVolume : Bool := true
  moveLargestToWarehouse : Bool := true
  largeRequestThreshold : ℚ := 3/10
  ortoolsTargetUtilization : ℚ := 8/10
deriving Repr

/-- Ascending order on customer volume, the key used by
`_sort_customers` and by step 3 of `_allocate_largest_to_warehouse`. -/
def volumeLe (a b : Customer) : Prop := a.volume ≤ b.volume

instance : DecidableRel volumeLe := fun a b => inferInstanceAs (Decidable (a.volume ≤ b.volume))

/-- `WarehouseManager._calculate_total_vehicle_capacity`: the sum of
`capacity * count` over enabled vehicle configurations. -/
def totalVehicleCapacity (vcs : List VehicleConfig) : ℤ :=
  ((vcs.filter (·.enabled)).map (fun v => v.capacity * (v.count : ℤ))).sum

/-- `max(v.capacity for v in self.vehicle_configs if v.enabled)` with the
`max_single_vehicle_capacity = 0` initialisation of
`_allocate_largest_to_warehouse` (the Python code raises on an empty
generator; the 0 default is only ever produced when `vehicle_configs` is
falsy). -/
def maxSingleVehicleCapacity (vcs : List VehicleConfig) : ℤ :=
  ((vcs.filter (·.enabled)).map (·.capacity)).foldl max 0

/-- `WarehouseManager._sort_customers`: stable ascending sort by volume when
`sort_by_volume` is set, identity otherwise. -/
def sortCustomers (w : WarehouseConfig) (customers : List Customer) : List Customer :=
  if w.sortByVolume then List.insertionSort volumeLe customers else customers

/-- Step 3 of `_allocate_largest_to_warehouse`: walk the (sorted) customers
keeping a running volume; a customer joins the vehicle set when the running
volume stays within the target capacity, and the warehouse set otherwise. -/
def fillToTarget (target : ℚ) : List Customer → ℚ → List Customer × List Customer
  | [], _ => ([], [])
  | c :: cs, cur =>
    if cur + c.volume ≤ target then
      let p := fillToTarget target cs (cur + c.volume)
      (c :: p.1, p.2)
    else
      let p := fillToTarget target cs cur
      (p.1, c :: p.2)

/-- `WarehouseManager._allocate_largest_to_warehouse`, returning the pair
(vehicle customers, warehouse customers).  Step 1 sends every customer whose
volume exceeds `max_single_vehicle_capacity * large_request_threshold` to
the warehouse; step 2 sends those above `max_single_vehicle_capacity` to the
warehouse; step 3 fills the rest, in ascending volume order, up to
`int(total_capacity * ortools_target_utilization)`. -/
def allocateLargestToWarehouse (w : WarehouseConfig) (vcs : List VehicleConfig)
    (totalCapacity : ℤ) (customers : List Customer) : List Customer × List Customer :=
  let maxCap : ℚ := (maxSingleVehicleCapacity vcs : ℚ)
  let thr : ℚ := maxCap * w.largeRequestThreshold
  let wh1 := customers.filter fun c => decide (thr < c.volume)
  let suit1 := customers.filter fun c => !decide (thr < c.volume)
  let overCap := suit1.filter fun c => decide (maxCap < c.volume)
  let suit2 := suit1.filter fun c => !decide (maxCap < c.volume)
  let target : ℚ := ((pyInt ((totalCapacity : ℚ) * w.ortoolsTargetUtilization)) : ℚ)
  let sorted := List.insertionSort volumeLe suit2
  let p := fillToTarget target sorted 0
  (p.1, (wh1 ++ overCap) ++ p.2)

/-- The allocation record produced by the pre-allocator
(`warehouse_manager.WarehouseAllocation`). -/
structure WarehouseAllocation where
  vehicleCustomers : List Customer
  warehouseCustomers : List Customer
  totalVehicleCapacity : ℤ
  totalVehicleVolume : ℚ
  warehouseVolume : ℚ
  capacityUtilization : ℚ
deriving Repr

/-- Sum of volumes of a list of customers. -/
def volumeSum (cs : List Customer) : ℚ := (cs.map Customer.volume).sum

/-- `WarehouseManager.allocate_customers`: sort, then either run the
warehouse allocation (`enable_warehouse`) or send everything to the solver
set. -/
def allocateCustomers (w : WarehouseConfig) (vcs : List VehicleConfig)
    (customers : List Customer) : WarehouseAllocation :=
  let totalCapacity := totalVehicleCapacity vcs
  let sorted := sortCustomers w customers
  if w.enableWarehouse then
    let p := allocateLargestToWarehouse w vcs totalCapacity sorted
    { vehicleCustomers := p.1
      warehouseCustomers := p.2
      totalVehicleCapacity := totalCapacity
      totalVehicleVolume := volumeSum p.1
      warehouseVolume := volumeSum p.2
      capacityUtilization :=
        if 0 < totalCapacity then volumeSum p.1 / (totalCapacity : ℚ) else 0 }
  else
    { vehicleCustomers := sorted
      warehouseCustomers := []
      totalVehicleCapacity := totalCapacity
      totalVehicleVolume := volumeSum sorted
      warehouseVolume := 0
      capacityUtilization :=
        if 0 < totalCapacity then volumeSum sorted / (totalCapacity : ℚ) else 0 }

theorem fillToTarget_perm (target : ℚ) (cs : List Customer) :
    ∀ cur, ((fillToTarget target cs cur).1 ++ (fillToTarget target cs cur).2).Perm cs := by
  induction cs with
  | nil => intro cur; simp [fillToTarget]
  | cons c cs ih =>
    intro cur
    by_cases h : cur + c.volume ≤ target
    · simpa [fillToTarget, h] using (ih (cur + c.volume)).cons c
    · simp only [fillToTarget, h, if_false]
      exact List.perm_middle.trans ((ih cur).cons c)

theorem perm_assemble {α : Type} (p1 p2 wh1 overCap suit1 suit2 sorted customers : List α)
    (hfill : (p1 ++ p2).Perm sorted) (hsortperm : sorted.Perm suit2)
    (hstep2 : (overCap ++ suit2).Perm suit1) (hstep1 : (wh1 ++ suit1).Perm customers) :
    (p1 ++ ((wh1 ++ overCap) ++ p2)).Perm customers := by
  rw [← Multiset.coe_eq_coe] at hfill hsortperm hstep2 hstep1 ⊢
  rw [← Multiset.coe_add] at hfill hstep2 hstep1
  rw [← Multiset.coe_add, ← Multiset.coe_add, ← Multiset.coe_add]
  rw [← hstep1, ← hstep2, ← hsortperm, ← hfill]
  simp only [add_comm, add_left_comm, add_assoc]

theorem allocateLargestToWarehouse_perm (w : WarehouseConfig) (vcs : List VehicleConfig)
    (totalCapacity : ℤ) (customers : List Customer) :
    ((allocateLargestToWarehouse w vcs totalCapacity customers).1 ++
      (allocateLargestToWarehouse w vcs totalCapacity customers).2).Perm customers := by
  simp only [allocateLargestToWarehouse]
  exact perm_assemble _ _ _ _ _ _ _ _ (fillToTarget_perm _ _ 0)
    (List.perm_insertionSort _ _) (List.filter_append_perm _ _) (List.filter_append_perm _ _)

theorem sortCustomers_perm (w : WarehouseConfig) (customers : List Customer) :
    (sortCustomers w customers).Perm customers := by
  unfold sortCustomers
  split
  · exact List.perm_insertionSort _ _
  · exact List.Perm.refl _

theorem volumeSum_append (a b : List Customer) :
    volumeSum (a ++ b) = volumeSum a + volumeSum b := by
  simp [volumeSum]

theorem volumeSum_perm {a b : List Customer} (h : a.Perm b) : volumeSum a = volumeSum b :=
  (h.map Customer.volume).sum_eq

theorem allocateCustomers_perm (w : WarehouseConfig) (vcs : List VehicleConfig)
    (customers : List Customer) :
    ((allocateCustomers w vcs customers).vehicleCustomers ++
      (allocateCustomers w vcs customers).warehouseCustomers).Perm customers := by
  by_cases h : w.enableWarehouse
  · simp only [allocateCustomers, h, if_true]
    exact (allocateLargestToWarehouse_perm w vcs _ _).trans (sortCustomers_perm w customers)
  · simp only [allocateCustomers, h, Bool.false_eq_true, if_false, List.append_nil]
    exact sortCustomers_perm w customers

/-- **C10.**  The pre-allocation is a bipartition of the input customers:
the solver set and the warehouse set together are a permutation of the
input (so the sizes add up and no customer is in both), and the total
volume is conserved exactly — in particular within the 0.1 tolerance the
code checks. -/
theorem allocateCustomers_partition (w : WarehouseConfig) (vcs : List VehicleConfig)
    (customers : List Customer) :
    ((allocateCustomers w vcs customers).vehicleCustomers ++
      (allocateCustomers w vcs customers).warehouseCustomers).Perm customers ∧
    (allocateCustomers w vcs customers).vehicleCustomers.length +
      (allocateCustomers w vcs customers).warehouseCustomers.length = customers.length ∧
    volumeSum (allocateCustomers w vcs customers).vehicleCustomers +
      volumeSum (allocateCustomers w vcs customers).warehouseCustomers = volumeSum customers ∧
    |volumeSum (allocateCustomers w vcs customers).vehicleCustomers +
      volumeSum (allocateCustomers w vcs customers).warehouseCustomers -
      volumeSum customers| ≤ 1/10 := by
  have hperm := allocateCustomers_perm w vcs customers
  have hlen : (allocateCustomers w vcs customers).vehicleCustomers.length +
      (allocateCustomers w vcs customers).warehouseCustomers.length = customers.length := by
    have := hperm.length_eq
    simpa [List.length_append] using this
  have hsum : volumeSum (allocateCustomers w vcs customers).vehicleCustomers +
      volumeSum (allocateCustomers w vcs customers).warehouseCustomers = volumeSum customers := by
    have := volumeSum_perm hperm
    simpa [volumeSum_append] using this
  exact ⟨hperm, hlen, hsum, by rw [hsum]; simp⟩

theorem fillToTarget_fst_subset (target : ℚ) (cs : List Customer) :
    ∀ cur c, c ∈ (fillToTarget target cs cur).1 → c ∈ cs := by
  induction cs with
  | nil => intro cur c hc; simp [fillToTarget] at hc
  | cons b cs ih =>
    intro cur c hc
    by_cases h : cur + b.volume ≤ target
    · simp only [fillToTarget, h, if_true, List.mem_cons] at hc
      rcases hc with hc | hc
      · exact hc ▸ List.mem_cons_self b cs
      · exact List.mem_cons_of_mem b (ih _ c hc)
    · simp only [fillToTarget, h, if_false] at hc
      exact List.mem_cons_of_mem b (ih _ c hc)

theorem fillToTarget_volume_le (target : ℚ) (cs : List Customer) :
    ∀ cur, volumeSum (fillToTarget target cs cur).1 ≤ max (target - cur) 0 := by
  induction cs with
  | nil => intro cur; simp [fillToTarget, volumeSum]
  | cons b cs ih =>
    intro cur
    by_cases h : cur + b.volume ≤ target
    · simp only [fillToTarget, h, if_true]
      have hsum : volumeSum (b :: (fillToTarget target cs (cur + b.volume)).1) =
          b.volume + volumeSum (fillToTarget target cs (cur + b.volume)).1 := by
        simp [volumeSum]
      rw [hsum]
      have hih := ih (cur + b.volume)
      rcases le_or_lt 0 (target - (cur + b.volume)) with hpos | hneg
      · rw [max_eq_left hpos] at hih
        have hb : b.volume + volumeSum (fillToTarget target cs (cur + b.volume)).1 ≤
            target - cur := by linarith
        exact hb.trans (le_max_left _ _)
      · rw [max_eq_right (by linarith)] at hih
        have hb : b.volume + volumeSum (fillToTarget target cs (cur + b.volume)).1 ≤
            target - cur := by linarith
        exact hb.trans (le_max_left _ _)
    · simp only [fillToTarget, h, if_false]
      exact ih cur

instance : IsTotal Customer volumeLe :=
  ⟨fun a b => le_total a.volume b.volume⟩

instance : IsTrans Customer volumeLe :=
  ⟨fun _ _ _ hab hbc => le_trans hab hbc⟩

/-- The customers stage 1 of `_allocate_largest_to_warehouse` sends to the
warehouse: volume above
`max_single_vehicle_capacity * large_request_threshold` (the
`move_largest_to_warehouse` flag is not consulted). -/
def stageOneWarehouse (w : WarehouseConfig) (vcs : List VehicleConfig)
    (customers : List Customer) : List Customer :=
  (sortCustomers w customers).filter fun x =>
    decide ((maxSingleVehicleCapacity vcs : ℚ) * w.largeRequestThreshold < x.volume)

/-- The customers stage 2 sends to the warehouse: at most the threshold but
above `max_single_vehicle_capacity`. -/
def stageTwoWarehouse (w : WarehouseConfig) (vcs : List VehicleConfig)
    (customers : List Customer) : List Customer :=
  ((sortCustomers w customers).filter fun x =>
      !decide ((maxSingleVehicleCapacity vcs : ℚ) * w.largeRequestThreshold < x.volume)).filter
    fun x => decide ((maxSingleVehicleCapacity vcs : ℚ) < x.volume)

/-- The input to stage 3 of `_allocate_largest_to_warehouse`: the eligible
customers (within both volume bounds) in ascending volume order. -/
def sortedEligible (w : WarehouseConfig) (vcs : List VehicleConfig)
    (customers : List Customer) : List Customer :=
  List.insertionSort volumeLe
    (((sortCustomers w customers).filter fun x =>
        !decide ((maxSingleVehicleCapacity vcs : ℚ) * w.largeRequestThreshold < x.volume)).filter
      fun x => !decide ((maxSingleVehicleCapacity vcs : ℚ) < x.volume))

/-- The fleet-utilization budget of stage 3:
`int(total_capacity * ortools_target_utilization)`. -/
def utilizationBudget (w : WarehouseConfig) (vcs : List VehicleConfig) : ℚ :=
  ((pyInt ((totalVehicleCapacity vcs : ℚ) * w.ortoolsTargetUtilization)) : ℚ)

theorem fillToTarget_all_reject (target : ℚ) (l : List Customer) :
    ∀ cur, (∀ x ∈ l, target < cur + x.volume) → fillToTarget target l cur = ([], l) := by
  induction l with
  | nil => intro cur _; rfl
  | cons c cs ih =>
    intro cur h
    have hc : ¬ (cur + c.volume ≤ target) := not_le.mpr (h c (List.mem_cons_self c cs))
    simp only [fillToTarget, hc, if_false]
    rw [ih cur fun x hx => h x (List.mem_cons_of_mem c hx)]

/-- On an ascending-volume list the greedy fill accepts exactly a prefix:
once one customer overflows the running budget, every later (no smaller)
customer overflows it too.  The fill result is `(take k, drop k)` for some
`k`, and the first rejected customer (when one exists) would push the
accepted volume past the target. -/
theorem fillToTarget_sorted_take_drop (target : ℚ) :
    ∀ S : List Customer, List.Sorted volumeLe S → ∀ cur, ∃ k,
      fillToTarget target S cur = (S.take k, S.drop k) ∧
      ∀ x, (S.drop k).head? = some x →
        target < cur + volumeSum (S.take k) + x.volume := by
  intro S
  induction S with
  | nil => intro _ cur; exact ⟨0, rfl, by simp⟩
  | cons c cs ih =>
    intro hs cur
    obtain ⟨hc, hcs⟩ := List.sorted_cons.mp hs
    by_cases hacc : cur + c.volume ≤ target
    · obtain ⟨k, hfill, hmax⟩ := ih hcs (cur + c.volume)
      refine ⟨k + 1, ?_, ?_⟩
      · simp only [fillToTarget, hacc, if_true, hfill]
        rfl
      · intro x hx
        have hmx := hmax x hx
        have hvol : volumeSum ((c :: cs).take (k + 1)) =
            c.volume + volumeSum (cs.take k) := by
          simp [volumeSum]
        rw [hvol]
        linarith
    · have hall : ∀ x ∈ cs, target < cur + x.volume := by
        intro x hx
        have h1 : target < cur + c.volume := not_le.mp hacc
        have h2 : c.volume ≤ x.volume := hc x hx
        linarith
      refine ⟨0, ?_, ?_⟩
      · simp only [fillToTarget, hacc, if_false]
        rw [fillToTarget_all_reject target cs cur hall]
        rfl
      · intro x hx
        have hxc : x = c := by
          simp only [List.drop_zero, List.head?_cons, Option.some.injEq] at hx
          exact hx.symm
        subst hxc
        simp only [List.take_zero, volumeSum, List.map_nil, List.sum_nil, add_zero]
        linarith [not_le.mp hacc]

/-- **C2 (amended).**  With `enable_warehouse` on, a customer is
warehouse-allocated iff its volume exceeds
`max_single_capacity × large_request_threshold` (applied without reading
the `move_largest_to_warehouse` flag), or exceeds `max_single_capacity`,
or does not fit the fleet-utilization budget
`int(total_capacity × ortools_target_utilization)` when the eligible
customers are packed smallest-first.  Formally: every threshold or
capacity violator lands in the warehouse set; every solver-set customer is
within both bounds; the solver set is exactly a prefix of the
ascending-volume ordering of the eligible customers, its volume stays
within the budget, the left-out suffix is warehouse-allocated in full, a
warehouse customer either violates a bound or lies in that suffix, and the
packing is maximal: the first eligible customer left out (when one exists)
would overflow the budget. -/
theorem warehouseAllocation_rule (w : WarehouseConfig) (vcs : List VehicleConfig)
    (customers : List Customer) (c : Customer) (hw : w.enableWarehouse = true) :
    (c ∈ customers →
      (maxSingleVehicleCapacity vcs : ℚ) * w.largeRequestThreshold < c.volume →
      c ∈ (allocateCustomers w vcs customers).warehouseCustomers) ∧
    (c ∈ customers → (maxSingleVehicleCapacity vcs : ℚ) < c.volume →
      c ∈ (allocateCustomers w vcs customers).warehouseCustomers) ∧
    (c ∈ (allocateCustomers w vcs customers).vehicleCustomers →
      c.volume ≤ (maxSingleVehicleCapacity vcs : ℚ) * w.largeRequestThreshold ∧
      c.volume ≤ (maxSingleVehicleCapacity vcs : ℚ)) ∧
    volumeSum (allocateCustomers w vcs customers).vehicleCustomers ≤
      max (utilizationBudget w vcs) 0 ∧
    ∃ k,
      (allocateCustomers w vcs customers).vehicleCustomers =
        (sortedEligible w vcs customers).take k ∧
      (∀ x ∈ (sortedEligible w vcs customers).drop k,
        x ∈ (allocateCustomers w vcs customers).warehouseCustomers) ∧
      (c ∈ (allocateCustomers w vcs customers).warehouseCustomers →
        (maxSingleVehicleCapacity vcs : ℚ) * w.largeRequestThreshold < c.volume ∨
        (maxSingleVehicleCapacity vcs : ℚ) < c.volume ∨
        c ∈ (sortedEligible w vcs customers).drop k) ∧
      (∀ x, ((sortedEligible w vcs customers).drop k).head? = some x →
        utilizationBudget w vcs <
          volumeSum (allocateCustomers w vcs customers).vehicleCustomers + x.volume) := by
  have hsS : List.Sorted volumeLe (sortedEligible w vcs customers) :=
    List.sorted_insertionSort volumeLe _
  obtain ⟨k, hfill, hmax⟩ := fillToTarget_sorted_take_drop (utilizationBudget w vcs)
    (sortedEligible w vcs customers) hsS 0
  have hveh : (allocateCustomers w vcs customers).vehicleCustomers =
      (fillToTarget (utilizationBudget w vcs) (sortedEligible w vcs customers) 0).1 := by
    simp only [allocateCustomers, hw, if_true, allocateLargestToWarehouse]
    rfl
  have hwh : (allocateCustomers w vcs customers).warehouseCustomers =
      (stageOneWarehouse w vcs customers ++ stageTwoWarehouse w vcs customers) ++
        (fillToTarget (utilizationBudget w vcs) (sortedEligible w vcs customers) 0).2 := by
    simp only [allocateCustomers, hw, if_true, allocateLargestToWarehouse]
    rfl
  have hvehk : (allocateCustomers w vcs customers).vehicleCustomers =
      (sortedEligible w vcs customers).take k := by
    rw [hveh, hfill]
  refine ⟨?_, ?_, ?_, ?_, k, hvehk, ?_, ?_, ?_⟩
  · intro hc hvol
    have hcs : c ∈ sortCustomers w customers := (sortCustomers_perm w customers).mem_iff.mpr hc
    have h1 : c ∈ stageOneWarehouse w vcs customers :=
      List.mem_filter.mpr ⟨hcs, by simpa using hvol⟩
    rw [hwh]
    exact List.mem_append.mpr (Or.inl (List.mem_append.mpr (Or.inl h1)))
  · intro hc hvol
    have hcs : c ∈ sortCustomers w customers := (sortCustomers_perm w customers).mem_iff.mpr hc
    rw [hwh]
    by_cases hthr : (maxSingleVehicleCapacity vcs : ℚ) * w.largeRequestThreshold < c.volume
    · have h1 : c ∈ stageOneWarehouse w vcs customers :=
        List.mem_filter.mpr ⟨hcs, by simpa using hthr⟩
      exact List.mem_append.mpr (Or.inl (List.mem_append.mpr (Or.inl h1)))
    · have h1 : c ∈ (sortCustomers w customers).filter fun x =>
          !decide ((maxSingleVehicleCapacity vcs : ℚ) * w.largeRequestThreshold < x.volume) :=
        List.mem_filter.mpr ⟨hcs, by simpa using hthr⟩
      have h2 : c ∈ stageTwoWarehouse w vcs customers :=
        List.mem_filter.mpr ⟨h1, by simpa using hvol⟩
      exact List.mem_append.mpr (Or.inl (List.mem_append.mpr (Or.inr h2)))
  · intro hc
    rw [hveh] at hc
    have h1 : c ∈ sortedEligible w vcs customers := fillToTarget_fst_subset _ _ 0 c hc
    have h1b : c ∈ List.insertionSort volumeLe
        (((sortCustomers w customers).filter fun x =>
            !decide ((maxSingleVehicleCapacity vcs : ℚ) * w.largeRequestThreshold < x.volume)).filter
          fun x => !decide ((maxSingleVehicleCapacity vcs : ℚ) < x.volume)) := h1
    have h2 := (List.perm_insertionSort volumeLe _).mem_iff.mp h1b
    have h3 := List.mem_filter.mp h2
    have h4 := List.mem_filter.mp h3.1
    constructor
    · have := h4.2
      simp only [Bool.not_eq_true', decide_eq_false_iff_not, not_lt] at this
      exact this
    · have := h3.2
      simp only [Bool.not_eq_true', decide_eq_false_iff_not, not_lt] at this
      exact this
  · rw [hveh]
    simpa using fillToTarget_volume_le (utilizationBudget w vcs) (sortedEligible w vcs customers) 0
  · intro x hx
    rw [hwh]
    have hx2 : x ∈ (fillToTarget (utilizationBudget w vcs)
        (sortedEligible w vcs customers) 0).2 := by
      rw [hfill]
      exact hx
    exact List.mem_append.mpr (Or.inr hx2)
  · intro hcw
    rw [hwh] at hcw
    rcases List.mem_append.mp hcw with h12 | h3
    · rcases List.mem_append.mp h12 with h1 | h2
      · have h1b : c ∈ (sortCustomers w customers).filter (fun x =>
            decide ((maxSingleVehicleCapacity vcs : ℚ) * w.largeRequestThreshold < x.volume)) := h1
        exact Or.inl (by simpa using (List.mem_filter.mp h1b).2)
      · have h2b : c ∈ ((sortCustomers w customers).filter fun x =>
            !decide ((maxSingleVehicleCapacity vcs : ℚ) * w.largeRequestThreshold < x.volume)).filter
              (fun x => decide ((maxSingleVehicleCapacity vcs : ℚ) < x.volume)) := h2
        exact Or.inr (Or.inl (by simpa using (List.mem_filter.mp h2b).2))
    · refine Or.inr (Or.inr ?_)
      rw [hfill] at h3
      exact h3
  · intro x hx
    have h := hmax x hx
    rw [hvehk]
    have hz : (0 : ℚ) + volumeSum ((sortedEligible w vcs customers).take k) =
        volumeSum ((sortedEligible w vcs customers).take k) := zero_add _
    linarith

/-- Single internal bus of capacity 100 — concrete fleet for the C2
counterexample. -/
def vehicleCfgCE : VehicleConfig :=
  { vehicleType := VehicleType.internalBus, capacity := 100, count := 1 }

/-- Warehouse configuration with `move_largest_to_warehouse = False`,
threshold 0.3, target utilization 0.8. -/
def warehouseCfgCE : WarehouseConfig :=
  { enableWarehouse := true, sortByVolume := true, moveLargestToWarehouse := false,
    largeRequestThreshold := 3/10, ortoolsTargetUtilization := 4/5 }

/-- Customer of volume 40 (above the 30 threshold, below capacity 100). -/
def custA : Customer := { id := 1, volume := 40 }

/-- Customer of volume 30. -/
def custB : Customer := { id := 2, volume := 30 }

/-- Customer of volume 30. -/
def custC : Customer := { id := 3, volume := 30 }

/-- Customer of volume 30. -/
def custD : Customer := { id := 4, volume := 30 }

/-- **C2 counterexample.**  With `move_largest_to_warehouse = False` the
claim allows warehouse allocation only for volumes above the maximum single
vehicle capacity (here 100).  Yet on volumes (40, 30, 30, 30) the code
sends customer A (volume 40 ≤ 100: the threshold rule is applied without
consulting the flag) and customer D (volume 30, not above any threshold:
it exceeds the `ortools_target_utilization` budget 80) to the warehouse. -/
theorem warehouseAllocation_counterexample :
    warehouseCfgCE.moveLargestToWarehouse = false ∧
    custA.volume ≤ (maxSingleVehicleCapacity [vehicleCfgCE] : ℚ) ∧
    custD.volume ≤ (maxSingleVehicleCapacity [vehicleCfgCE] : ℚ) * warehouseCfgCE.largeRequestThreshold ∧
    (allocateCustomers warehouseCfgCE [vehicleCfgCE]
        [custA, custB, custC, custD]).warehouseCustomers = [custA, custD] := by
  refine ⟨rfl, ?_, ?_, ?_⟩
  · norm_num [maxSingleVehicleCapacity, vehicleCfgCE, custA]
  · norm_num [maxSingleVehicleCapacity, vehicleCfgCE, warehouseCfgCE, custD]
  · norm_num [allocateCustomers, sortCustomers, allocateLargestToWarehouse, fillToTarget,
      volumeLe, maxSingleVehicleCapacity, totalVehicleCapacity, pyInt, warehouseCfgCE,
      vehicleCfgCE, custA, custB, custC, custD, List.insertionSort, List.orderedInsert,
      List.filter]

/-- Witness for `warehouseAllocation_rule` at the concrete counterexample
input: customer A (volume 40) is above the 30 threshold and indeed ends up
in the warehouse set, and the solver set is a prefix of the sorted
eligible customers. -/
theorem warehouseAllocation_rule_witness :
    warehouseCfgCE.enableWarehouse = true ∧
    custA ∈ (allocateCustomers warehouseCfgCE [vehicleCfgCE]
      [custA, custB, custC, custD]).warehouseCustomers ∧
    ∃ k, (allocateCustomers warehouseCfgCE [vehicleCfgCE]
        [custA, custB, custC, custD]).vehicleCustomers =
      (sortedEligible warehouseCfgCE [vehicleCfgCE] [custA, custB, custC, custD]).take k := by
  obtain ⟨h1, _, _, _, k, hk, _⟩ := warehouseAllocation_rule warehouseCfgCE [vehicleCfgCE]
    [custA, custB, custC, custD] custA rfl
  exact ⟨rfl, h1 (by simp)
    (by norm_num [maxSingleVehicleCapacity, vehicleCfgCE, warehouseCfgCE, custA]), k, hk⟩

/-- A route record (`cvrp_solver.Route`). -/
structure Route where
  vehicleType : VehicleType
  vehicleId : ℕ
  customers : List Customer
  depotLocation : ℚ × ℚ
  totalDistanceKm : ℚ := 0
  totalTimeMinutes : ℚ := 0
  totalVolume : ℚ := 0
  isFeasible : Bool := true
deriving DecidableEq, Repr

/-- A solution record (`cvrp_solver.CVRPSolution`). -/
structure CVRPSolution where
  routes : List Route
  droppedCustomers : List Customer
  totalDistanceKm : ℚ
  totalTimeMinutes : ℚ
  totalVehiclesUsed : ℕ
  fitnessScore : ℚ
  isFeasible : Bool
  totalServedVolume : ℚ := 0
deriving DecidableEq, Repr

/-- `sum(r.total_volume for r in sol.routes)` — the served volume `main.py`
computes for each worker solution before choosing a winner. -/
def servedVolume (s : CVRPSolution) : ℚ := (s.routes.map Route.totalVolume).sum

/-- The scan underlying the Python builtin `max`: keep the current best and
replace it only when a later element's key is strictly greater, so the
first element attaining the maximum key wins. -/
def pyMaxFrom {α : Type} (key : α → ℚ) (best : α) : List α → α
  | [] => best
  | y :: ys => pyMaxFrom key (if key best < key y then y else best) ys

/-- Python `max(lst, key=...)` as used in `main.py` (none on an empty
list, where Python raises `ValueError`). -/
def pyMaxBy {α : Type} (key : α → ℚ) : List α → Option α
  | [] => none
  | x :: xs => some (pyMaxFrom key x xs)

/-- `sol.total_served_volume = sum(r.total_volume for r in sol.routes)` —
the in-place update `main.py` performs on every valid solution. -/
def setServedVolume (s : CVRPSolution) : CVRPSolution :=
  { s with totalServedVolume := servedVolume s }

/-- `valid_solutions = [sol for sol in results if sol is not None]`,
each updated with its served volume. -/
def validSolutions (results : List (Option CVRPSolution)) : List CVRPSolution :=
  (results.filterMap id).map setServedVolume

/-- The racer's winner selection (`main.py` lines 311–321):
`max(valid_solutions, key=lambda s: s.total_served_volume)`. -/
def selectBestSolution (results : List (Option CVRPSolution)) : Option CVRPSolution :=
  pyMaxBy CVRPSolution.totalServedVolume (validSolutions results)

theorem pyMaxFrom_eq_or_lt {α : Type} (key : α → ℚ) (l : List α) :
    ∀ b, pyMaxFrom key b l = b ∨ key b < key (pyMaxFrom key b l) := by
  induction l with
  | nil => intro b; exact Or.inl rfl
  | cons y ys ih =>
    intro b
    by_cases h : key b < key y
    · simp only [pyMaxFrom, h, if_true]
      rcases ih y with h2 | h2
      · rw [h2]; exact Or.inr h
      · exact Or.inr (h.trans h2)
    · simpa only [pyMaxFrom, h, if_false] using ih b

theorem pyMaxFrom_split {α : Type} (key : α → ℚ) (l : List α) :
    ∀ b, ∃ l₁ l₂, b :: l = l₁ ++ pyMaxFrom key b l :: l₂ ∧
      (∀ t ∈ b :: l, key t ≤ key (pyMaxFrom key b l)) ∧
      ∀ t ∈ l₁, key t < key (pyMaxFrom key b l) := by
  induction l with
  | nil =>
    intro b
    exact ⟨[], [], by simp [pyMaxFrom], by simp [pyMaxFrom], by simp⟩
  | cons y ys ih =>
    intro b
    by_cases h : key b < key y
    · simp only [pyMaxFrom, h, if_true]
      obtain ⟨l₁, l₂, heq, hle, hlt⟩ := ih y
      have hym : key y ≤ key (pyMaxFrom key y ys) := hle y (List.mem_cons_self y ys)
      refine ⟨b :: l₁, l₂, by rw [List.cons_append, ← heq], ?_, ?_⟩
      · intro t ht
        rcases List.mem_cons.mp ht with rfl | ht
        · exact le_of_lt (h.trans_le hym)
        · exact hle t ht
      · intro t ht
        rcases List.mem_cons.mp ht with rfl | ht
        · exact h.trans_le hym
        · exact hlt t ht
    · simp only [pyMaxFrom, h, if_false]
      obtain ⟨l₁, l₂, heq, hle, hlt⟩ := ih b
      have hyb : key y ≤ key b := le_of_not_lt h
      have hbm : key b ≤ key (pyMaxFrom key b ys) := hle b (List.mem_cons_self b ys)
      match l₁, heq with
      | [], heq =>
        have hmb : pyMaxFrom key b ys = b := by
          have := heq
          simp only [List.nil_append, List.cons.injEq] at this
          exact this.1.symm
        refine ⟨[], y :: ys, by simp [hmb], ?_, by simp⟩
        intro t ht
        rcases List.mem_cons.mp ht with rfl | ht
        · exact hbm
        · rcases List.mem_cons.mp ht with rfl | ht
          · exact hyb.trans hbm
          · exact hle t (List.mem_cons_of_mem b ht)
      | a :: l₁, heq =>
        have hab : b = a := by
          simp only [List.cons_append, List.cons.injEq] at heq
          exact heq.1
        subst hab
        have hys : ys = l₁ ++ pyMaxFrom key b ys :: l₂ := by
          simp only [List.cons_append, List.cons.injEq] at heq
          exact heq.2
        have ham : key b < key (pyMaxFrom key b ys) := hlt b (List.mem_cons_self b l₁)
        refine ⟨b :: y :: l₁, l₂,
          congrArg (List.cons b) (congrArg (List.cons y) hys), ?_, ?_⟩
        · intro t ht
          rcases List.mem_cons.mp ht with rfl | ht
          · exact hbm
          · rcases List.mem_cons.mp ht with rfl | ht
            · exact hyb.trans hbm
            · exact hle t (List.mem_cons_of_mem b ht)
        · intro t ht
          rcases List.mem_cons.mp ht with rfl | ht
          · exact ham
          · rcases List.mem_cons.mp ht with rfl | ht
            · exact hyb.trans_lt ham
            · exact hlt t (List.mem_cons_of_mem b ht)

/-- **C1 (amended).**  The racer's winner is the valid worker solution with
the maximum total served volume, and among solutions tying on served volume
the one from the earliest worker (stable worker order) wins: every strictly
earlier valid solution has strictly smaller served volume.  The solver
objective, vehicle count and dropped-customer count play no role in the
selection. -/
theorem selectBestSolution_spec (results : List (Option CVRPSolution)) (s : CVRPSolution)
    (h : selectBestSolution results = some s) :
    ∃ l₁ l₂, validSolutions results = l₁ ++ s :: l₂ ∧
      (∀ t ∈ validSolutions results, t.totalServedVolume ≤ s.totalServedVolume) ∧
      ∀ t ∈ l₁, t.totalServedVolume < s.totalServedVolume := by
  unfold selectBestSolution pyMaxBy at h
  revert h
  match hv : validSolutions results with
  | [] => intro h; exact absurd h (by simp)
  | x :: xs =>
    intro h
    have hs : pyMaxFrom CVRPSolution.totalServedVolume x xs = s := by
      simpa using h
    obtain ⟨l₁, l₂, heq, hle, hlt⟩ := pyMaxFrom_split CVRPSolution.totalServedVolume xs x
    rw [hs] at heq hle hlt
    exact ⟨l₁, l₂, heq, hle, hlt⟩

/-- A feasible one-route solution with served volume 10 and objective
100000, returned by the first worker. -/
def solTieHighCost : CVRPSolution :=
  { routes := [{ vehicleType := VehicleType.internalBus, vehicleId := 0, customers := [custB],
                 depotLocation := (0, 0), totalVolume := 10 }],
    droppedCustomers := [], totalDistanceKm := 100, totalTimeMinutes := 60,
    totalVehiclesUsed := 1, fitnessScore := 100000, isFeasible := true,
    totalServedVolume := 10 }

/-- A feasible one-route solution with the same served volume 10 but the
strictly smaller objective 50000, returned by the second worker. -/
def solTieLowCost : CVRPSolution :=
  { routes := [{ vehicleType := VehicleType.internalBus, vehicleId := 0, customers := [custB],
                 depotLocation := (0, 0), totalVolume := 10 }],
    droppedCustomers := [], totalDistanceKm := 50, totalTimeMinutes := 60,
    totalVehiclesUsed := 1, fitnessScore := 50000, isFeasible := true,
    totalServedVolume := 10 }

/-- **C1 counterexample.**  Two worker solutions tie on served volume and
the second has the strictly lower solver objective; the claim says the
second must win, but the code returns the first (Python `max` keeps the
first maximal element and never consults the objective). -/
theorem selectBestSolution_counterexample :
    selectBestSolution [some solTieHighCost, some solTieLowCost] = some solTieHighCost ∧
    servedVolume solTieHighCost = servedVolume solTieLowCost ∧
    solTieLowCost.fitnessScore < solTieHighCost.fitnessScore ∧
    solTieHighCost ≠ solTieLowCost := by
  refine ⟨?_, by norm_num [servedVolume, solTieHighCost, solTieLowCost], by
    norm_num [solTieHighCost, solTieLowCost], by
    simp [solTieHighCost, solTieLowCost]⟩
  norm_num [selectBestSolution, validSolutions, pyMaxBy, pyMaxFrom, setServedVolume,
    servedVolume, solTieHighCost, solTieLowCost, List.filterMap_cons, List.filterMap_nil,
    List.map_cons, List.map_nil, id]

/-- Witness for `selectBestSolution_spec` at the concrete two-worker race. -/
theorem selectBestSolution_spec_witness :
    selectBestSolution [some solTieHighCost, some solTieLowCost] = some solTieHighCost ∧
    ∃ l₁ l₂, validSolutions [some solTieHighCost, some solTieLowCost] = l₁ ++ solTieHighCost :: l₂ ∧
      (∀ t ∈ validSolutions [some solTieHighCost, some solTieLowCost],
        t.totalServedVolume ≤ solTieHighCost.totalServedVolume) ∧
      ∀ t ∈ l₁, t.totalServedVolume < solTieHighCost.totalServedVolume := by
  have hsel : selectBestSolution [some solTieHighCost, some solTieLowCost] =
      some solTieHighCost := by
    norm_num [selectBestSolution, validSolutions, pyMaxBy, pyMaxFrom, setServedVolume,
      servedVolume, solTieHighCost, solTieLowCost, List.filterMap_cons, List.filterMap_nil,
      List.map_cons, List.map_nil, id]
  exact ⟨hsel, selectBestSolution_spec _ _ hsel⟩

/-- Lexicographic order on coordinate pairs: the sort key
`lambda x: (x[0], x[1])` of `main.get_distance_matrix`, and the default
tuple order used by `sorted` in `CVRPSolver.solve`. -/
def coordLe (a b : ℚ × ℚ) : Prop := a.1 < b.1 ∨ (a.1 = b.1 ∧ a.2 ≤ b.2)

instance : DecidableRel coordLe := fun a b =>
  inferInstanceAs (Decidable (a.1 < b.1 ∨ (a.1 = b.1 ∧ a.2 ≤ b.2)))

instance : IsTotal (ℚ × ℚ) coordLe :=
  ⟨fun a b => by
    rcases lt_trichotomy a.1 b.1 with h | h | h
    · exact Or.inl (Or.inl h)
    · rcases le_total a.2 b.2 with h2 | h2
      · exact Or.inl (Or.inr ⟨h, h2⟩)
      · exact Or.inr (Or.inr ⟨h.symm, h2⟩)
    · exact Or.inr (Or.inl h)⟩

instance : IsTrans (ℚ × ℚ) coordLe :=
  ⟨fun a b c hab hbc => by
    rcases hab with h1 | ⟨h1, h1b⟩
    · rcases hbc with h2 | ⟨h2, _⟩
      · exact Or.inl (h1.trans h2)
      · exact Or.inl (h2 ▸ h1)
    · rcases hbc with h2 | ⟨h2, h2b⟩
      · exact Or.inl (h1 ▸ h2)
      · exact Or.inr ⟨h1.trans h2, h1b.trans h2b⟩⟩

theorem coordLe_refl (a : ℚ × ℚ) : coordLe a a := Or.inr ⟨rfl, le_refl _⟩

theorem coordLe_antisymm {a b : ℚ × ℚ} (hab : coordLe a b) (hba : coordLe b a) : a = b := by
  rcases hab with h1 | ⟨h1, h1b⟩
  · rcases hba with h2 | ⟨h2, _⟩
    · exact absurd (h1.trans h2) (lt_irrefl _)
    · exact absurd h1 (h2 ▸ lt_irrefl _)
  · rcases hba with h2 | ⟨h2, h2b⟩
    · exact absurd h2 (h1 ▸ lt_irrefl _)
    · exact Prod.ext h1 (le_antisymm h1b h2b)

/-- The raw depot collection before deduplication: the main depot plus the
override start locations of enabled vehicles
(`unique_depots = {depot_location}; ... unique_depots.add(start_location)`). -/
def rawDepots (mainDepot : ℚ × ℚ) (vcs : List VehicleConfig) : List (ℚ × ℚ) :=
  mainDepot :: vcs.filterMap fun v => if v.enabled then v.startLocation else none

/-- The ordered unique-depot list handed to the matrix and the solver:
the depot set sorted ascending by `(lat, lon)`
(`sorted_depots = sorted(list(unique_depots), key=lambda x: (x[0], x[1]))`
in `main.get_distance_matrix`; `sorted(list(unique_depots))` in
`CVRPSolver.solve`). -/
def uniqueDepots (mainDepot : ℚ × ℚ) (vcs : List VehicleConfig) : List (ℚ × ℚ) :=
  List.insertionSort coordLe (rawDepots mainDepot vcs).dedup

/-- **C9 (amended).**  Position 0 of the ordered unique-depot list is the
lexicographically smallest (by latitude, then longitude) member of the
depot set — the main depot together with the enabled vehicles' override
start locations.  It is the main depot exactly when the main depot is the
lexicographic minimum; no rule places a "center" depot first. -/
theorem uniqueDepots_head_spec (mainDepot : ℚ × ℚ) (vcs : List VehicleConfig) (d : ℚ × ℚ)
    (hd : (uniqueDepots mainDepot vcs).head? = some d) :
    d ∈ rawDepots mainDepot vcs ∧
    (∀ e ∈ rawDepots mainDepot vcs, coordLe d e) ∧
    (d = mainDepot ↔ ∀ e ∈ rawDepots mainDepot vcs, coordLe mainDepot e) := by
  have hsorted : List.Sorted coordLe (uniqueDepots mainDepot vcs) :=
    List.sorted_insertionSort coordLe _
  have hperm : (uniqueDepots mainDepot vcs).Perm (rawDepots mainDepot vcs).dedup :=
    List.perm_insertionSort coordLe _
  obtain ⟨rest, hrest⟩ : ∃ rest, uniqueDepots mainDepot vcs = d :: rest := by
    cases h : uniqueDepots mainDepot vcs with
    | nil => rw [h] at hd; exact absurd hd (by simp)
    | cons x xs =>
      rw [h] at hd
      simp only [List.head?] at hd
      exact ⟨xs, by rw [Option.some.injEq] at hd; rw [hd]⟩
  have hmem_iff : ∀ e, e ∈ uniqueDepots mainDepot vcs ↔ e ∈ rawDepots mainDepot vcs := by
    intro e
    rw [hperm.mem_iff, List.mem_dedup]
  have hdmem : d ∈ rawDepots mainDepot vcs := by
    rw [← hmem_iff, hrest]; exact List.mem_cons_self d rest
  have hmin : ∀ e ∈ rawDepots mainDepot vcs, coordLe d e := by
    intro e he
    have : e ∈ d :: rest := by rw [← hrest, hmem_iff]; exact he
    rcases List.mem_cons.mp this with rfl | hin
    · exact coordLe_refl e
    · rw [hrest] at hsorted
      exact (List.pairwise_cons.mp hsorted).1 e hin
  refine ⟨hdmem, hmin, ?_, fun hmainmin => ?_⟩
  · rintro rfl; exact hmin
  · exact coordLe_antisymm (hmin mainDepot (List.mem_cons_self _ _)) (hmainmin d hdmem)

/-- Main depot at (3, 3) for the C9 counterexample. -/
def mainDepotCE : ℚ × ℚ := (3, 3)

/-- The configured "center" location, at (2, 2); no depot coincides with
it. -/
def centerLocCE : ℚ × ℚ := (2, 2)

/-- An enabled vehicle whose override start location (1, 1) sorts before
the main depot. -/
def overrideVehicleCE : VehicleConfig :=
  { vehicleType := VehicleType.centerBus, capacity := 250, count := 1,
    startLocation := some (1, 1) }

/-- **C9 counterexample.**  No depot distinct from the main depot equals
the center location, so the claim puts the main depot (3, 3) at index 0;
but the code sorts the depot set ascending and places the override depot
(1, 1) — not the main depot, not the center — at index 0. -/
theorem uniqueDepots_counterexample :
    uniqueDepots mainDepotCE [overrideVehicleCE] = [(1, 1), (3, 3)] ∧
    (uniqueDepots mainDepotCE [overrideVehicleCE]).head? = some (1, 1) ∧
    ((1 : ℚ), (1 : ℚ)) ≠ mainDepotCE ∧
    ((1 : ℚ), (1 : ℚ)) ≠ centerLocCE ∧
    centerLocCE ∉ uniqueDepots mainDepotCE [overrideVehicleCE] := by
  have h : uniqueDepots mainDepotCE [overrideVehicleCE] = [(1, 1), (3, 3)] := by
    norm_num [uniqueDepots, rawDepots, mainDepotCE, overrideVehicleCE, List.dedup_cons_of_not_mem,
      List.insertionSort, List.orderedInsert, coordLe, Prod.ext_iff]
  refine ⟨h, by rw [h]; rfl, ?_, ?_, ?_⟩
  · simp [mainDepotCE, Prod.ext_iff]
  · simp [centerLocCE, Prod.ext_iff]
  · rw [h]; simp [centerLocCE, Prod.ext_iff]

/-- Witness for `uniqueDepots_head_spec` at the concrete counterexample
fleet: index 0 holds (1, 1), the lexicographic minimum of the depot set. -/
theorem uniqueDepots_head_spec_witness :
    (uniqueDepots mainDepotCE [overrideVehicleCE]).head? = some (1, 1) ∧
    ((1 : ℚ), (1 : ℚ)) ∈ rawDepots mainDepotCE [overrideVehicleCE] ∧
    ∀ e ∈ rawDepots mainDepotCE [overrideVehicleCE], coordLe ((1 : ℚ), (1 : ℚ)) e := by
  have hd : (uniqueDepots mainDepotCE [overrideVehicleCE]).head? = some (1, 1) := by
    have h : uniqueDepots mainDepotCE [overrideVehicleCE] = [(1, 1), (3, 3)] := by
      norm_num [uniqueDepots, rawDepots, mainDepotCE, overrideVehicleCE,
        List.dedup_cons_of_not_mem, List.insertionSort, List.orderedInsert, coordLe,
        Prod.ext_iff]
    rw [h]; rfl
  have hspec := uniqueDepots_head_spec mainDepotCE [overrideVehicleCE] (1, 1) hd
  exact ⟨hd, hspec.1, hspec.2.1⟩

/-- Location configuration (`config.LocationConfig`) together with the
center-zone fields `cvrp_solver.py` reads from it
(`enable_center_zone_restrictions`, `center_zone_radius_km` and the three
per-type penalty multipliers) which are absent from this copy of
`config.py`; their defaults (2 km radius, multipliers 2.0 / 7.0 / 10.0)
follow the spec. -/
structure LocationConfig where
  depotLocation : ℚ × ℚ
  centerLocation : ℚ × ℚ
  enableCenterZoneRestrictions : Bool := true
  centerZoneRadiusKm : ℚ := 2
  internalBusCenterPenaltyMultiplier : ℚ := 2
  specialBusCenterPenaltyMultiplier : ℚ := 7
  externalBusCenterPenaltyMultiplier : ℚ := 10
deriving DecidableEq, Repr

/-- CVRP solver configuration (`config.CVRPConfig`): the search fields
present in `config.py`, plus the discount and reconfiguration fields read
by `cvrp_solver.py` but absent from this copy of the configuration module
(defaults follow the spec: Dnorm 10000, Vnorm 50, weights 0.5/0.5, max
discount 0.5, divisor 2). -/
structure CVRPConfig where
  timeLimitSeconds : ℕ := 60
  firstSolutionStrategy : String := "PATH_CHEAPEST_ARC"
  localSearchMetaheuristic : String := "GUIDED_LOCAL_SEARCH"
  logSearch : Bool := true
  distanceNormalizationFactor : ℚ := 10000
  volumeNormalizationFactor : ℚ := 50
  distanceWeight : ℚ := 1/2
  volumeWeight : ℚ := 1/2
  maxDiscountPercentage : ℚ := 1/2
  discountFactorDivisor : ℚ := 2
  distancePenaltyDisjunction : ℤ := 50000
  enableFinalDepotReconfiguration : Bool := true
deriving DecidableEq, Repr

/-- The search parameters `ORToolsSolver.solve` passes to
`SolveWithParameters`. -/
structure SearchParameters where
  firstSolutionStrategy : String
  localSearchMetaheuristic : String
  timeLimitSeconds : ℕ
  logSearch : Bool
deriving DecidableEq, Repr

/-- The search-parameter setup of the full solver (`cvrp_solver.py` lines
565–575): first-solution strategy and local-search metaheuristic are the
hardcoded enum constants `PATH_CHEAPEST_ARC` and `GUIDED_LOCAL_SEARCH`;
only the wall-clock time limit and the log flag are taken from the
configuration object. -/
def configureSearchParameters (cfg : CVRPConfig) : SearchParameters :=
  { firstSolutionStrategy := "PATH_CHEAPEST_ARC"
    localSearchMetaheuristic := "GUIDED_LOCAL_SEARCH"
    timeLimitSeconds := cfg.timeLimitSeconds
    logSearch := cfg.logSearch }

/-- A worker configuration carrying the strategy pair (SAVINGS,
TABU_SEARCH). -/
def savingsTabuConfig : CVRPConfig :=
  { firstSolutionStrategy := "SAVINGS", localSearchMetaheuristic := "TABU_SEARCH" }

/-- A worker configuration carrying the strategy pair (SWEEP,
SIMULATED_ANNEALING). -/
def sweepAnnealingConfig : CVRPConfig :=
  { firstSolutionStrategy := "SWEEP", localSearchMetaheuristic := "SIMULATED_ANNEALING" }

/-- **C5 (code bug).**  `solve` does not configure the search with the
strategy pair handed to it: two worker configurations carrying different
(first-solution, metaheuristic) pairs produce identical search parameters,
always `PATH_CHEAPEST_ARC` with `GUIDED_LOCAL_SEARCH`; only the time limit
and log flag come from the configuration. -/
theorem configureSearchParameters_ignores_pair :
    savingsTabuConfig.firstSolutionStrategy = "SAVINGS" ∧
    sweepAnnealingConfig.firstSolutionStrategy = "SWEEP" ∧
    savingsTabuConfig ≠ sweepAnnealingConfig ∧
    configureSearchParameters savingsTabuConfig = configureSearchParameters sweepAnnealingConfig ∧
    (configureSearchParameters savingsTabuConfig).firstSolutionStrategy = "PATH_CHEAPEST_ARC" ∧
    (configureSearchParameters savingsTabuConfig).localSearchMetaheuristic =
      "GUIDED_LOCAL_SEARCH" ∧
    (∀ cfg : CVRPConfig,
      (configureSearchParameters cfg).firstSolutionStrategy = "PATH_CHEAPEST_ARC" ∧
      (configureSearchParameters cfg).timeLimitSeconds = cfg.timeLimitSeconds ∧
      (configureSearchParameters cfg).logSearch = cfg.logSearch) := by
  refine ⟨rfl, rfl, ?_, rfl, rfl, rfl, fun cfg => ⟨rfl, rfl, rfl⟩⟩
  intro h
  exact absurd (congrArg CVRPConfig.firstSolutionStrategy h) (by decide)

/-- Placeholder customer making list indexing total; the Python code would
raise `IndexError` for a node outside the matrix, which the solver never
produces. -/
def defaultCustomer : Customer := { id := 0, volume := 0 }

/-- The state `ORToolsSolver.solve` closes over when registering its
arc-cost callbacks: configuration, location configuration, node layout
(`num_depots` depots first, then the customers in list order), the integer
distance matrix, the precomputed center-zone customer list, and the
haversine distance from each customer to the center location
(`calculate_distance_km(customer.coordinates, center_location)`), whose
trigonometry is abstracted as a function. -/
structure SolverContext where
  cfg : CVRPConfig
  loc : LocationConfig
  numDepots : ℕ
  customers : List Customer
  dist : ℕ → ℕ → ℤ
  centerZoneCustomers : List Customer
  distToCenterKm : Customer → ℚ

/-- `self.customers[to_node - len(self.unique_depots)]`. -/
def customerAtNode (ctx : SolverContext) (j : ℕ) : Customer :=
  ctx.customers.getD (j - ctx.numDepots) defaultCustomer

/-- `base_distance_callback` (and `distance_callback`): the raw integer
matrix entry. -/
def baseDistanceCallback (ctx : SolverContext) (i j : ℕ) : ℤ := ctx.dist i j

/-- `priority_non_center_callback` (`cvrp_solver.py` lines 378–431): when
the destination is a customer node, discount the base distance by
`min(max_discount, (df*wd + vf*wv) / divisor)` where
`df = distance_from_depot_m / Dnorm` and `vf = (Vnorm - volume) / Vnorm`
(not clamped below at 0), truncating the product to an integer; otherwise
return the base distance. -/
def priorityNonCenterCallback (ctx : SolverContext) (i j : ℕ) : ℤ :=
  let baseDistance : ℚ := (ctx.dist i j : ℚ)
  if ctx.numDepots ≤ j then
    let c := customerAtNode ctx j
    let distanceFactor := c.distanceFromDepotM / ctx.cfg.distanceNormalizationFactor
    let volumeFactor :=
      (ctx.cfg.volumeNormalizationFactor - c.volume) / ctx.cfg.volumeNormalizationFactor
    let combinedFactor :=
      distanceFactor * ctx.cfg.distanceWeight + volumeFactor * ctx.cfg.volumeWeight
    let discount :=
      min ctx.cfg.maxDiscountPercentage (combinedFactor / ctx.cfg.discountFactorDivisor)
    pyInt (baseDistance * (1 - discount))
  else pyInt baseDistance

/-- `center_bus_priority_callback` (`cvrp_solver.py` lines 445–458): halve
the cost of arcs into customers whose id belongs to the precomputed
center-zone customer list. -/
def centerBusPriorityCallback (ctx : SolverContext) (i j : ℕ) : ℤ :=
  if ctx.numDepots ≤ j ∧ (customerAtNode ctx j).id ∈ ctx.centerZoneCustomers.map Customer.id then
    pyInt ((ctx.dist i j : ℚ) * (1/2))
  else ctx.dist i j

/-- Common body of the three center-zone penalty callbacks: multiply the
cost of arcs into customers within `center_zone_radius_km` of the center
(haversine) by the given multiplier, truncating to an integer. -/
def centerPenaltyCallback (ctx : SolverContext) (multiplier : ℚ) (i j : ℕ) : ℤ :=
  if ctx.numDepots ≤ j ∧
      ctx.distToCenterKm (customerAtNode ctx j) ≤ ctx.loc.centerZoneRadiusKm then
    pyInt ((ctx.dist i j : ℚ) * multiplier)
  else ctx.dist i j

/-- `external_bus_penalty_callback` (`cvrp_solver.py` lines 471–491). -/
def externalBusPenaltyCallback (ctx : SolverContext) (i j : ℕ) : ℤ :=
  centerPenaltyCallback ctx ctx.loc.externalBusCenterPenaltyMultiplier i j

/-- `internal_bus_penalty_callback` (`cvrp_solver.py` lines 504–524). -/
def internalBusPenaltyCallback (ctx : SolverContext) (i j : ℕ) : ℤ :=
  centerPenaltyCallback ctx ctx.loc.internalBusCenterPenaltyMultiplier i j

/-- `special_bus_penalty_callback` (`cvrp_solver.py` lines 537–557). -/
def specialBusPenaltyCallback (ctx : SolverContext) (i j : ℕ) : ℤ :=
  centerPenaltyCallback ctx ctx.loc.specialBusCenterPenaltyMultiplier i j

/-- The arc-cost evaluator in effect for a vehicle of each type after the
registration sequence of `ORToolsSolver.solve` (each later
`SetArcCostEvaluatorOfVehicle` overwrites the earlier assignment for that
vehicle): the base callback for every vehicle; then the far-low-volume
priority callback for external, internal and special buses; then the
center-bus discount callback for center buses when the center-zone
customer list is nonempty (`if self.center_zone_customers and
data['center_bus_vehicle_ids']` — NOT gated on
`enable_center_zone_restrictions`); then the per-type center penalty
callbacks for external, internal and special buses when
`enable_center_zone_restrictions` is set.  For a vehicle of a given type,
the guards on the per-type vehicle-id lists hold automatically. -/
def effectiveArcCost (ctx : SolverContext) (vt : VehicleType) (i j : ℕ) : ℤ :=
  match vt with
  | VehicleType.centerBus =>
      if ctx.centerZoneCustomers.isEmpty then baseDistanceCallback ctx i j
      else centerBusPriorityCallback ctx i j
  | VehicleType.externalBus =>
      if ctx.loc.enableCenterZoneRestrictions then externalBusPenaltyCallback ctx i j
      else priorityNonCenterCallback ctx i j
  | VehicleType.internalBus =>
      if ctx.loc.enableCenterZoneRestrictions then internalBusPenaltyCallback ctx i j
      else priorityNonCenterCallback ctx i j
  | VehicleType.specialBus =>
      if ctx.loc.enableCenterZoneRestrictions then specialBusPenaltyCallback ctx i j
      else priorityNonCenterCallback ctx i j
  | _ => baseDistanceCallback ctx i j

theorem pyInt_intCast (n : ℤ) : pyInt (n : ℚ) = n := by
  unfold pyInt
  split
  · exact Int.floor_intCast n
  · exact Int.ceil_intCast n

/-- **C3 (amended).**  When center-zone restrictions are enabled, every arc
into a customer within `center_zone_radius_km` of the center costs the
truncated product of the matrix distance with the type-specific multiplier
for internal, special and external buses.  The center-bus ×0.5 discount,
however, is applied whenever the destination customer's id belongs to the
precomputed center-zone customer list — a membership test, not the
haversine radius test — and independently of whether center-zone
restrictions are enabled. -/
theorem centerZoneArcCost_spec (ctx : SolverContext) (i j : ℕ)
    (hj : ctx.numDepots ≤ j)
    (hin : ctx.distToCenterKm (customerAtNode ctx j) ≤ ctx.loc.centerZoneRadiusKm)
    (hflag : ctx.loc.enableCenterZoneRestrictions = true) :
    effectiveArcCost ctx VehicleType.externalBus i j =
      pyInt ((ctx.dist i j : ℚ) * ctx.loc.externalBusCenterPenaltyMultiplier) ∧
    effectiveArcCost ctx VehicleType.internalBus i j =
      pyInt ((ctx.dist i j : ℚ) * ctx.loc.internalBusCenterPenaltyMultiplier) ∧
    effectiveArcCost ctx VehicleType.specialBus i j =
      pyInt ((ctx.dist i j : ℚ) * ctx.loc.specialBusCenterPenaltyMultiplier) ∧
    ((customerAtNode ctx j).id ∈ ctx.centerZoneCustomers.map Customer.id →
      effectiveArcCost ctx VehicleType.centerBus i j = pyInt ((ctx.dist i j : ℚ) * (1/2))) := by
  refine ⟨?_, ?_, ?_, ?_⟩
  · simp [effectiveArcCost, hflag, externalBusPenaltyCallback, centerPenaltyCallback, hj, hin]
  · simp [effectiveArcCost, hflag, internalBusPenaltyCallback, centerPenaltyCallback, hj, hin]
  · simp [effectiveArcCost, hflag, specialBusPenaltyCallback, centerPenaltyCallback, hj, hin]
  · intro hmem
    have hne : ctx.centerZoneCustomers.isEmpty = false := by
      cases h : ctx.centerZoneCustomers with
      | nil => rw [h] at hmem; simp at hmem
      | cons a l => rfl
    simp [effectiveArcCost, hne, centerBusPriorityCallback, hj, hmem]

/-- A customer inside the precomputed center-zone list for the C3
counterexample. -/
def custZ : Customer := { id := 9, volume := 5 }

/-- Solver context with center-zone restrictions DISABLED, one depot, one
center-zone customer at node 1, and a 1000 m arc from the depot. -/
def ctxCenterOff : SolverContext :=
  { cfg := {}
    loc := { depotLocation := (0, 0), centerLocation := (0, 0),
             enableCenterZoneRestrictions := false }
    numDepots := 1
    customers := [custZ]
    dist := fun i j => if i = 0 ∧ j = 1 then 1000 else 0
    centerZoneCustomers := [custZ]
    distToCenterKm := fun _ => 1 }

/-- **C3 counterexample.**  With center-zone restrictions disabled the claim
says no type-specific multiplier — including the center-bus ×0.5 discount —
is applied, so the center-bus arc cost should be the plain distance 1000;
the code still halves it to 500 because the discount is guarded only by the
nonemptiness of the center-zone customer list. -/
theorem centerZoneArcCost_counterexample :
    ctxCenterOff.loc.enableCenterZoneRestrictions = false ∧
    baseDistanceCallback ctxCenterOff 0 1 = 1000 ∧
    effectiveArcCost ctxCenterOff VehicleType.centerBus 0 1 = 500 := by
  refine ⟨rfl, rfl, ?_⟩
  norm_num [effectiveArcCost, ctxCenterOff, centerBusPriorityCallback, customerAtNode,
    custZ, pyInt]

/-- The same context with center-zone restrictions enabled, for the C3
witness. -/
def ctxCenterOn : SolverContext :=
  { ctxCenterOff with
    loc := { depotLocation := (0, 0), centerLocation := (0, 0),
             enableCenterZoneRestrictions := true } }

/-- Witness for `centerZoneArcCost_spec`: with restrictions enabled and the
default multipliers, the 1000 m arc into the in-zone customer costs 10000
for an external bus and 500 for the center bus. -/
theorem centerZoneArcCost_spec_witness :
    ctxCenterOn.numDepots ≤ 1 ∧
    ctxCenterOn.distToCenterKm (customerAtNode ctxCenterOn 1) ≤
      ctxCenterOn.loc.centerZoneRadiusKm ∧
    effectiveArcCost ctxCenterOn VehicleType.externalBus 0 1 = 10000 ∧
    effectiveArcCost ctxCenterOn VehicleType.centerBus 0 1 = 500 := by
  have h := centerZoneArcCost_spec ctxCenterOn 0 1 (le_refl 1)
    (by norm_num [ctxCenterOn, ctxCenterOff]) rfl
  refine ⟨le_refl 1, by norm_num [ctxCenterOn, ctxCenterOff], ?_, ?_⟩
  · rw [h.1]
    norm_num [ctxCenterOn, ctxCenterOff, pyInt]
  · rw [h.2.2.2 (by norm_num [ctxCenterOn, ctxCenterOff, customerAtNode, custZ])]
    norm_num [ctxCenterOn, ctxCenterOff, pyInt]

/-- **C4 (amended).**  When center-zone restrictions are disabled — so that
the priority callback is the evaluator of every internal, external and
special bus — an arc into a customer node costs the product
`distance × (1 − discount)` truncated toward zero (Python `int`, not
rounding to nearest), with `discount = min(max_discount, (df·wd + vf·wv) /
divisor)`, `df = distance_from_depot_m / Dnorm` and
`vf = (Vnorm − volume) / Vnorm` left unclamped, so a volume above `Vnorm`
can make the discount negative and the cost exceed the distance; an arc
into a depot node costs exactly the matrix distance. -/
theorem priorityDiscount_spec (ctx : SolverContext) (vt : VehicleType) (i j : ℕ)
    (hvt : vt = VehicleType.internalBus ∨ vt = VehicleType.externalBus ∨
      vt = VehicleType.specialBus)
    (hflag : ctx.loc.enableCenterZoneRestrictions = false) :
    (ctx.numDepots ≤ j →
      effectiveArcCost ctx vt i j =
        pyInt ((ctx.dist i j : ℚ) * (1 - min ctx.cfg.maxDiscountPercentage
          ((((customerAtNode ctx j).distanceFromDepotM / ctx.cfg.distanceNormalizationFactor) *
              ctx.cfg.distanceWeight +
            ((ctx.cfg.volumeNormalizationFactor - (customerAtNode ctx j).volume) /
              ctx.cfg.volumeNormalizationFactor) * ctx.cfg.volumeWeight) /
            ctx.cfg.discountFactorDivisor)))) ∧
    (j < ctx.numDepots → effectiveArcCost ctx vt i j = ctx.dist i j) := by
  constructor
  · intro hj
    rcases hvt with rfl | rfl | rfl
    all_goals simp [effectiveArcCost, hflag, priorityNonCenterCallback, hj]
  · intro hj
    have hj2 : ¬ ctx.numDepots ≤ j := not_le.mpr hj
    rcases hvt with rfl | rfl | rfl
    all_goals simp [effectiveArcCost, hflag, priorityNonCenterCallback, hj2, pyInt_intCast]

/-- The cost formula the C4 claim states, following the spec's words: the
volume factor is clamped below at 0 and the discounted product is rounded
to the nearest integer. -/
def claimedDiscountCost (cfg : CVRPConfig) (d : ℤ) (c : Customer) : ℤ :=
  let df := c.distanceFromDepotM / cfg.distanceNormalizationFactor
  let vf := max ((cfg.volumeNormalizationFactor - c.volume) / cfg.volumeNormalizationFactor) 0
  let discount :=
    min cfg.maxDiscountPercentage ((df * cfg.distanceWeight + vf * cfg.volumeWeight) /
      cfg.discountFactorDivisor)
  round ((d : ℚ) * (1 - discount))

/-- A customer whose volume 100 exceeds the normalization factor 50, at
distance 0 from the depot. -/
def custHeavy : Customer := { id := 7, volume := 100, distanceFromDepotM := 0 }

/-- Solver context (restrictions disabled) with one depot, the heavy
customer at node 1, and a 999 m arc. -/
def ctxHeavy : SolverContext :=
  { cfg := {}
    loc := { depotLocation := (0, 0), centerLocation := (0, 0),
             enableCenterZoneRestrictions := false }
    numDepots := 1
    customers := [custHeavy]
    dist := fun i j => if i = 0 ∧ j = 1 then 999 else 0
    centerZoneCustomers := []
    distToCenterKm := fun _ => 100 }

/-- **C4 counterexample.**  On a 999 m arc into a customer of volume 100
(above Vnorm = 50) at depot distance 0, the claim's formula (clamped volume
factor, rounding) yields 999, but the code computes the unclamped
`vf = −1`, hence `discount = −1/4`, and truncates `999 × 1.25 = 1248.75`
to 1248 — a markup instead of a discount. -/
theorem priorityDiscount_counterexample :
    effectiveArcCost ctxHeavy VehicleType.externalBus 0 1 = 1248 ∧
    claimedDiscountCost ctxHeavy.cfg (ctxHeavy.dist 0 1) (customerAtNode ctxHeavy 1) = 999 ∧
    (1248 : ℤ) ≠ 999 := by
  refine ⟨?_, ?_, by decide⟩
  · norm_num [effectiveArcCost, ctxHeavy, priorityNonCenterCallback, customerAtNode,
      custHeavy, pyInt]
  · norm_num [claimedDiscountCost, ctxHeavy, customerAtNode, custHeavy]

/-- Witness for `priorityDiscount_spec` at the heavy-customer context: the
external-bus cost of the 999 m arc equals the truncated unclamped formula,
1248. -/
theorem priorityDiscount_spec_witness :
    ctxHeavy.loc.enableCenterZoneRestrictions = false ∧
    effectiveArcCost ctxHeavy VehicleType.externalBus 0 1 =
      pyInt ((ctxHeavy.dist 0 1 : ℚ) * (1 - min ctxHeavy.cfg.maxDiscountPercentage
        ((((customerAtNode ctxHeavy 1).distanceFromDepotM /
            ctxHeavy.cfg.distanceNormalizationFactor) * ctxHeavy.cfg.distanceWeight +
          ((ctxHeavy.cfg.volumeNormalizationFactor - (customerAtNode ctxHeavy 1).volume) /
            ctxHeavy.cfg.volumeNormalizationFactor) * ctxHeavy.cfg.volumeWeight) /
          ctxHeavy.cfg.discountFactorDivisor))) :=
  ⟨rfl, (priorityDiscount_spec ctxHeavy VehicleType.externalBus 0 1
    (Or.inr (Or.inl rfl)) rfl).1 (by norm_num [ctxHeavy])⟩

/-- `base_service_time` of `_create_data_model`
(`next((v.service_time_minutes for v in self.vehicle_configs if
v.enabled), 15) * 60`): the service time, in seconds, of the FIRST enabled
vehicle configuration (15 minutes when none is enabled). -/
def baseServiceTime (vcs : List VehicleConfig) : ℤ :=
  (((vcs.find? (·.enabled)).map (·.serviceTimeMinutes)).getD 15) * 60

/-- `data['service_times']`: 0 for every depot node, `base_service_time`
for every customer node — the same value for all vehicles. -/
def serviceTimes (numDepots : ℕ) (vcs : List VehicleConfig) (n : ℕ) : ℤ :=
  if n < numDepots then 0 else baseServiceTime vcs

/-- `time_callback` (`cvrp_solver.py` lines 321–326): per-arc transit =
service time of the departure node plus travel duration.  The callback has
no vehicle argument: every vehicle gets the same transit. -/
def timeCallback (dur : ℕ → ℕ → ℤ) (numDepots : ℕ) (vcs : List VehicleConfig)
    (i j : ℕ) : ℤ :=
  serviceTimes numDepots vcs i + dur i j

/-- The fleet expansion of `_create_data_model`: each enabled
configuration contributes `count` identical vehicle instances, in
configuration order. -/
def expandFleet (vcs : List VehicleConfig) : List VehicleConfig :=
  ((vcs.filter (·.enabled)).map fun v => List.replicate v.count v).flatten

/-- `data['vehicle_max_times']`: per-instance `int(max_time_hours * 3600)`. -/
def vehicleMaxTimes (vcs : List VehicleConfig) : List ℤ :=
  (expandFleet vcs).map fun v => v.maxTimeHours * 3600

/-- **C7 (amended).**  The Time-dimension transit of every vehicle on arc
(i, j) is `duration[i][j]` plus the service time of the FIRST enabled
vehicle configuration (charged on departure from a customer node, 0 when
departing a depot node) — not the vehicle's own type's service time; the
per-vehicle time maximum is the vehicle's own `max_time_hours × 3600`. -/
theorem timeDimension_spec (dur : ℕ → ℕ → ℤ) (numDepots : ℕ) (vcs : List VehicleConfig)
    (i j : ℕ) :
    (numDepots ≤ i → timeCallback dur numDepots vcs i j = baseServiceTime vcs + dur i j) ∧
    (i < numDepots → timeCallback dur numDepots vcs i j = dur i j) ∧
    (∀ k : ℕ, ∀ v : VehicleConfig, (expandFleet vcs).get? k = some v →
      (vehicleMaxTimes vcs).get? k = some (v.maxTimeHours * 3600)) := by
  refine ⟨?_, ?_, ?_⟩
  · intro hi
    simp [timeCallback, serviceTimes, not_lt.mpr hi]
  · intro hi
    simp [timeCallback, serviceTimes, hi]
  · intro k v hk
    rw [List.get?_eq_getElem?] at hk
    simp [vehicleMaxTimes, List.get?_eq_getElem?, List.getElem?_map, hk]

/-- Internal-bus configuration with 5-minute service time (first enabled
entry of the fleet). -/
def internalCfg5 : VehicleConfig :=
  { vehicleType := VehicleType.internalBus, capacity := 360, count := 1,
    serviceTimeMinutes := 5 }

/-- Center-bus configuration with 8-minute service time. -/
def centerCfg8 : VehicleConfig :=
  { vehicleType := VehicleType.centerBus, capacity := 250, count := 1,
    serviceTimeMinutes := 8 }

/-- **C7 counterexample.**  Fleet (internal 5 min, center 8 min): the
center bus's own service time is 480 s, but the transit every vehicle —
including the center bus — is charged when leaving customer node 1 on a
600 s leg is 300 + 600 = 900 s, using the first enabled configuration's
5 minutes, not 480 + 600 = 1080 s. -/
theorem timeCallback_counterexample :
    centerCfg8.serviceTimeMinutes * 60 = 480 ∧
    baseServiceTime [internalCfg5, centerCfg8] = 300 ∧
    timeCallback (fun _ _ => 600) 1 [internalCfg5, centerCfg8] 1 2 = 900 ∧
    (900 : ℤ) ≠ 600 + 480 := by
  refine ⟨by decide, ?_, ?_, by decide⟩
  · simp [baseServiceTime, List.find?, internalCfg5, centerCfg8]
  · simp [timeCallback, serviceTimes, baseServiceTime, List.find?, internalCfg5, centerCfg8]

/-- Witness for `timeDimension_spec` at the two-type fleet: departing
customer node 1 the transit is 300 + 600; departing the depot it is 600;
the second vehicle instance (the center bus) has time maximum 9 × 3600. -/
theorem timeDimension_spec_witness :
    (1 : ℕ) ≤ 1 ∧
    timeCallback (fun _ _ => 600) 1 [internalCfg5, { centerCfg8 with maxTimeHours := 9 }] 1 2 =
      baseServiceTime [internalCfg5, { centerCfg8 with maxTimeHours := 9 }] + 600 ∧
    timeCallback (fun _ _ => 600) 1 [internalCfg5, { centerCfg8 with maxTimeHours := 9 }] 0 1 =
      600 ∧
    (vehicleMaxTimes [internalCfg5, { centerCfg8 with maxTimeHours := 9 }]).get? 1 =
      some (9 * 3600) := by
  have h := timeDimension_spec (fun _ _ => 600) 1
    [internalCfg5, { centerCfg8 with maxTimeHours := 9 }] 1 2
  have h0 := timeDimension_spec (fun _ _ => 600) 1
    [internalCfg5, { centerCfg8 with maxTimeHours := 9 }] 0 1
  refine ⟨le_refl 1, h.1 (le_refl 1), h0.2.1 (by decide), ?_⟩
  have hk : (expandFleet [internalCfg5, { centerCfg8 with maxTimeHours := 9 }]).get? 1 =
      some { centerCfg8 with maxTimeHours := 9 } := by
    simp [expandFleet, internalCfg5, centerCfg8, List.replicate]
  exact h.2.2 1 { centerCfg8 with maxTimeHours := 9 } hk

/-- Python truthiness of an optional integer (`None` and `0` are falsy):
the guard pattern `if vehicle_config.max_distance_km and ...`. -/
def truthy : Option ℤ → Bool
  | none => false
  | some n => n ≠ 0

/-- Python truthiness of an optional natural number. -/
def truthyNat : Option ℕ → Bool
  | none => false
  | some n => n ≠ 0

/-- The per-route hard-limit validation block of `_extract_solution`
(`cvrp_solver.py` lines 777–802): the extracted route is feasible unless
it exceeds a truthy max distance, its capacity, a truthy max customer
count, or `max_time_hours * 60 + 1` minutes. -/
def extractRouteIsFeasible (vc : VehicleConfig) (r : Route) : Bool :=
  !((truthy vc.maxDistanceKm && decide ((vc.maxDistanceKm.getD 0 : ℚ) < r.totalDistanceKm)) ||
    decide ((vc.capacity : ℚ) < r.totalVolume) ||
    (truthyNat vc.maxCustomersPerRoute &&
      decide (vc.maxCustomersPerRoute.getD 0 < r.customers.length)) ||
    decide (((vc.maxTimeHours * 60 + 1 : ℤ) : ℚ) < r.totalTimeMinutes))

/-- `_validate_reconfigured_route`: same checks but with the time bound
`max_time_hours * 60` — without the +1 rounding allowance. -/
def validateReconfiguredRoute (vc : VehicleConfig) (r : Route) : Bool :=
  !(decide ((vc.capacity : ℚ) < r.totalVolume) ||
    decide (((vc.maxTimeHours * 60 : ℤ) : ℚ) < r.totalTimeMinutes) ||
    (truthy vc.maxDistanceKm && decide ((vc.maxDistanceKm.getD 0 : ℚ) < r.totalDistanceKm)) ||
    (truthyNat vc.maxCustomersPerRoute &&
      decide (vc.maxCustomersPerRoute.getD 0 < r.customers.length)))

/-- `_get_vehicle_config_for_id`: walk the enabled configurations matching
the vehicle id against consecutive count ranges. -/
def vehicleConfigForIdAux : List VehicleConfig → ℕ → ℕ → Option VehicleConfig
  | [], _, _ => none
  | v :: vs, cur, id =>
    if v.enabled then
      if cur ≤ id ∧ id < cur + v.count then some v
      else vehicleConfigForIdAux vs (cur + v.count) id
    else vehicleConfigForIdAux vs cur id

/-- `_get_vehicle_config_for_id` with its fallback to the first enabled
configuration (the Python code raises when nothing is enabled). -/
def vehicleConfigForId (vcs : List VehicleConfig) (id : ℕ) : Option VehicleConfig :=
  (vehicleConfigForIdAux vcs 0 id).orElse fun _ => vcs.find? (·.enabled)

/-- The solver state the final depot reconfiguration reads: enabled
vehicle configurations, the ordered unique depots, the solver customer
list (matrix order), and the integer matrices. -/
structure ReconfigEnv where
  vcs : List VehicleConfig
  uniqueDepots : List (ℚ × ℚ)
  customers : List Customer
  distances : ℕ → ℕ → ℤ
  durations : ℕ → ℕ → ℤ

/-- `len(self.unique_depots) + self.customers.index(customer)`: the matrix
node of a route customer (first occurrence, as Python `list.index`). -/
def customerMatrixIndex (env : ReconfigEnv) (c : Customer) : ℕ :=
  env.uniqueDepots.length + env.customers.indexOf c

/-- One step of the greedy loop in `_optimize_route_from_depot` on a
nonempty remaining list (head `c`, tail `l`): scan keeping the first
customer of strictly minimal key (the Python loop updates only on a strict
`<`), returning it together with the rest of the list in order. -/
def pickClosest1 (f : Customer → ℤ) (c : Customer) : List Customer → Customer × List Customer
  | [] => (c, [])
  | d :: ds =>
    let p := pickClosest1 f d ds
    if f p.1 < f c then (p.1, c :: p.2) else (c, d :: ds)

/-- The greedy loop of `_optimize_route_from_depot`, fuelled by the number
of remaining customers (the Python `while remaining_customers` loop
removes exactly one customer per iteration). -/
def greedyOrderFuel (env : ReconfigEnv) : ℕ → ℕ → List Customer → List Customer
  | 0, _, _ => []
  | Nat.succ fuel, current, remaining =>
    match remaining with
    | [] => []
    | c :: cs =>
      let p := pickClosest1 (fun x => env.distances current (customerMatrixIndex env x)) c cs
      p.1 :: greedyOrderFuel env fuel (customerMatrixIndex env p.1) p.2

/-- `_optimize_route_from_depot`: greedy nearest-customer re-sequencing
starting from the main depot, matrix node 0. -/
def optimizeRouteFromDepot (env : ReconfigEnv) (customers : List Customer) : List Customer :=
  greedyOrderFuel env customers.length 0 customers

/-- The leg walk of `_calculate_route_from_depot`: from the current node
visit each customer in order (adding matrix distance, matrix duration and
the per-customer service seconds) and finally return to depot node 0.
Returns accumulated (meters, seconds). -/
def routeLegs (env : ReconfigEnv) : ℕ → List Customer → ℤ × ℤ
  | current, [] => (env.distances current 0, env.durations current 0)
  | current, c :: cs =>
    let idx := customerMatrixIndex env c
    let rest := routeLegs env idx cs
    (env.distances current idx + rest.1,
     env.durations current idx + baseServiceTime env.vcs + rest.2)

/-- `_calculate_route_from_depot`: (total km, total minutes) of the walk
depot → customers → depot; (0, 0) for an empty customer list.  The service
time is `next((v.service_time_minutes for v in self.vehicle_configs if
v.enabled), 15) * 60` — the same expression as the data model’s
`base_service_time`. -/
def calculateRouteFromDepot (env : ReconfigEnv) (customers : List Customer) : ℚ × ℚ :=
  if customers.isEmpty then (0, 0)
  else (((routeLegs env 0 customers).1 : ℚ) / 1000, ((routeLegs env 0 customers).2 : ℚ) / 60)

/-- The body of the per-route loop in `_reconfigure_routes_from_depot`:
re-sequence the customers greedily from the main depot (index 0), recompute
distance/time/volume, and re-validate against the vehicle’s limits, marking
the route infeasible on violation.  (When no configuration is enabled the
Python code raises; that case never occurs in the pipeline and is modelled
as returning the unvalidated route.) -/
def reconfigureRoute (env : ReconfigEnv) (r : Route) : Route :=
  let opt := optimizeRouteFromDepot env r.customers
  let metrics := calculateRouteFromDepot env opt
  let newRoute : Route :=
    { vehicleType := r.vehicleType, vehicleId := r.vehicleId, customers := opt,
      depotLocation := env.uniqueDepots.headD (0, 0),
      totalDistanceKm := metrics.1, totalTimeMinutes := metrics.2,
      totalVolume := volumeSum opt, isFeasible := true }
  match vehicleConfigForId env.vcs r.vehicleId with
  | some vc =>
    if validateReconfiguredRoute vc newRoute then newRoute
    else { newRoute with isFeasible := false }
  | none => newRoute

/-- `_reconfigure_routes_from_depot`: process every route in order,
skipping routes with no customers. -/
def reconfigureRoutes (env : ReconfigEnv) : List Route → List Route
  | [] => []
  | r :: rs =>
    if r.customers.isEmpty then reconfigureRoutes env rs
    else reconfigureRoute env r :: reconfigureRoutes env rs

theorem pickClosest1_perm (f : Customer → ℤ) (l : List Customer) :
    ∀ c, ((pickClosest1 f c l).1 :: (pickClosest1 f c l).2).Perm (c :: l) := by
  induction l with
  | nil => intro c; simp [pickClosest1]
  | cons d ds ih =>
    intro c
    simp only [pickClosest1]
    by_cases h : f (pickClosest1 f d ds).1 < f c
    · rw [if_pos h]
      exact (List.Perm.swap c (pickClosest1 f d ds).1 (pickClosest1 f d ds).2).trans
        ((ih d).cons c)
    · rw [if_neg h]

theorem greedyOrderFuel_perm (env : ReconfigEnv) :
    ∀ fuel current remaining, remaining.length ≤ fuel →
      (greedyOrderFuel env fuel current remaining).Perm remaining := by
  intro fuel
  induction fuel with
  | zero =>
    intro current remaining hlen
    have hnil : remaining = [] := List.length_eq_zero.mp (Nat.le_zero.mp hlen)
    rw [hnil]
    exact List.Perm.refl _
  | succ fuel ih =>
    intro current remaining hlen
    cases remaining with
    | nil => exact List.Perm.refl _
    | cons c cs =>
      simp only [greedyOrderFuel]
      have hperm := pickClosest1_perm
        (fun x => env.distances current (customerMatrixIndex env x)) cs c
      have hlenrest : (pickClosest1
          (fun x => env.distances current (customerMatrixIndex env x)) c cs).2.length ≤ fuel := by
        have := hperm.length_eq
        simp only [List.length_cons] at this hlen
        omega
      exact ((ih _ _ hlenrest).cons _).trans hperm

theorem optimizeRouteFromDepot_perm (env : ReconfigEnv) (customers : List Customer) :
    (optimizeRouteFromDepot env customers).Perm customers :=
  greedyOrderFuel_perm env customers.length 0 customers (le_refl _)

/-- **C8.**  Every route processed by the final depot reconfiguration keeps
exactly its customers (as a permutation) and its vehicle type and vehicle
id; and the reconfigured list consists precisely of the processed
(nonempty) routes in order. -/
theorem reconfigureRoutes_preserves_customers (env : ReconfigEnv) (r : Route) :
    ((reconfigureRoute env r).customers).Perm r.customers ∧
    (reconfigureRoute env r).vehicleType = r.vehicleType ∧
    (reconfigureRoute env r).vehicleId = r.vehicleId ∧
    ∀ routes : List Route, reconfigureRoutes env routes =
      (routes.filter fun x => !x.customers.isEmpty).map (reconfigureRoute env) := by
  have hfields : ((reconfigureRoute env r).customers = optimizeRouteFromDepot env r.customers) ∧
      (reconfigureRoute env r).vehicleType = r.vehicleType ∧
      (reconfigureRoute env r).vehicleId = r.vehicleId := by
    unfold reconfigureRoute
    cases vehicleConfigForId env.vcs r.vehicleId with
    | none => exact ⟨rfl, rfl, rfl⟩
    | some vc =>
      simp only []
      split
      · exact ⟨rfl, rfl, rfl⟩
      · exact ⟨rfl, rfl, rfl⟩
  refine ⟨hfields.1 ▸ optimizeRouteFromDepot_perm env r.customers, hfields.2.1, hfields.2.2, ?_⟩
  intro routes
  induction routes with
  | nil => rfl
  | cons x xs ihx =>
    by_cases hx : x.customers.isEmpty
    · simp [reconfigureRoutes, hx, ihx]
    · simp only [reconfigureRoutes, hx, if_false]
      rw [ihx]
      simp [hx]

/-- The solution-level feasibility aggregation at the end of
`_extract_solution`: feasible iff no route is marked infeasible and no
customer was dropped. -/
def solutionIsFeasible (routes : List Route) (dropped : List Customer) : Bool :=
  routes.all (·.isFeasible) && dropped.isEmpty

theorem extractRouteIsFeasible_iff (vc : VehicleConfig) (r : Route)
    (hmd : vc.maxDistanceKm ≠ some 0) (hmc : vc.maxCustomersPerRoute ≠ some 0) :
    extractRouteIsFeasible vc r = true ↔
      (r.totalVolume ≤ (vc.capacity : ℚ) ∧
       (∀ d, vc.maxDistanceKm = some d → r.totalDistanceKm ≤ (d : ℚ)) ∧
       (∀ m, vc.maxCustomersPerRoute = some m → r.customers.length ≤ m) ∧
       r.totalTimeMinutes ≤ ((vc.maxTimeHours * 60 + 1 : ℤ) : ℚ)) := by
  unfold extractRouteIsFeasible
  cases hd : vc.maxDistanceKm with
  | none =>
    cases hc : vc.maxCustomersPerRoute with
    | none =>
      simp only [truthy, truthyNat, Bool.false_and, Bool.false_or, Bool.or_false,
        Bool.not_eq_true', Bool.or_eq_false_iff, decide_eq_false_iff_not, not_lt]
      constructor
      · rintro ⟨h1, h2⟩
        exact ⟨h1, fun d hd2 => absurd hd2 (by simp), fun m hm2 => absurd hm2 (by simp), h2⟩
      · rintro ⟨h1, _, _, h2⟩
        exact ⟨h1, h2⟩
    | some m =>
      have hm : m ≠ 0 := fun h => hmc (by rw [hc, h])
      simp only [truthy, truthyNat, Bool.false_and, Bool.false_or, decide_eq_true_eq,
        ne_eq, hm, not_false_eq_true, decide_True, Bool.true_and,
        Bool.not_eq_true', Bool.or_eq_false_iff, decide_eq_false_iff_not, not_lt,
        Option.getD_some]
      constructor
      · rintro ⟨⟨h1, h2⟩, h3⟩
        exact ⟨h1, fun d hd2 => absurd hd2 (by simp),
          fun m2 hm2 => by rw [← Option.some.inj hm2]; exact h2, h3⟩
      · rintro ⟨h1, _, h2, h3⟩
        exact ⟨⟨h1, h2 m rfl⟩, h3⟩
  | some d =>
    have hd0 : d ≠ 0 := fun h => hmd (by rw [hd, h])
    cases hc : vc.maxCustomersPerRoute with
    | none =>
      simp only [truthy, truthyNat, Bool.false_and, Bool.false_or, Bool.or_false,
        decide_eq_true_eq, ne_eq, hd0, not_false_eq_true, decide_True, Bool.true_and,
        Bool.not_eq_true', Bool.or_eq_false_iff, decide_eq_false_iff_not, not_lt,
        Option.getD_some]
      constructor
      · rintro ⟨⟨h1, h2⟩, h3⟩
        exact ⟨h2, fun d2 hd2 => by rw [← Option.some.inj hd2]; exact h1,
          fun m hm2 => absurd hm2 (by simp), h3⟩
      · rintro ⟨h1, h2, _, h3⟩
        exact ⟨⟨h2 d rfl, h1⟩, h3⟩
    | some m =>
      have hm : m ≠ 0 := fun h => hmc (by rw [hc, h])
      simp only [truthy, truthyNat, Bool.false_and, Bool.false_or, decide_eq_true_eq,
        ne_eq, hd0, hm, not_false_eq_true, decide_True, Bool.true_and,
        Bool.not_eq_true', Bool.or_eq_false_iff, decide_eq_false_iff_not, not_lt,
        Option.getD_some]
      constructor
      · rintro ⟨⟨⟨h1, h2⟩, h3⟩, h4⟩
        exact ⟨h2, fun d2 hd2 => by rw [← Option.some.inj hd2]; exact h1,
          fun m2 hm2 => by rw [← Option.some.inj hm2]; exact h3, h4⟩
      · rintro ⟨h1, h2, h3, h4⟩
        exact ⟨⟨⟨h2 d rfl, h1⟩, h3 m rfl⟩, h4⟩

/-- **C6 (amended).**  When the final depot reconfiguration is disabled the
extracted solution's feasibility flag is true iff no route violates its
vehicle's hard limits — volume ≤ capacity, distance ≤ the max distance when
one is set, customer count ≤ the max count when one is set, and time ≤
`60·max_time_hours + 1` minutes — and the dropped-customers list is empty.
(When the reconfiguration is enabled the routes are re-validated with the
stricter bound `60·max_time_hours`, without the +1 allowance; see the
counterexample.)  Routes are paired here with their vehicle configurations,
their flags being exactly those the extraction block computes. -/
theorem extractFeasibility_spec (pairs : List (VehicleConfig × Route)) (dropped : List Customer)
    (hflags : ∀ p ∈ pairs, p.2.isFeasible = extractRouteIsFeasible p.1 p.2)
    (hmd : ∀ p ∈ pairs, p.1.maxDistanceKm ≠ some 0)
    (hmc : ∀ p ∈ pairs, p.1.maxCustomersPerRoute ≠ some 0) :
    solutionIsFeasible (pairs.map Prod.snd) dropped = true ↔
      ((∀ p ∈ pairs,
        p.2.totalVolume ≤ (p.1.capacity : ℚ) ∧
        (∀ d, p.1.maxDistanceKm = some d → p.2.totalDistanceKm ≤ (d : ℚ)) ∧
        (∀ m, p.1.maxCustomersPerRoute = some m → p.2.customers.length ≤ m) ∧
        p.2.totalTimeMinutes ≤ ((p.1.maxTimeHours * 60 + 1 : ℤ) : ℚ)) ∧
      dropped = []) := by
  unfold solutionIsFeasible
  rw [Bool.and_eq_true, List.all_eq_true]
  constructor
  · rintro ⟨hall, hdrop⟩
    refine ⟨?_, List.isEmpty_iff.mp hdrop⟩
    intro p hp
    have hflag := hall p.2 (List.mem_map_of_mem Prod.snd hp)
    rw [hflags p hp] at hflag
    exact (extractRouteIsFeasible_iff p.1 p.2 (hmd p hp) (hmc p hp)).mp hflag
  · rintro ⟨hroutes, rfl⟩
    refine ⟨?_, rfl⟩
    intro r hr
    obtain ⟨p, hp, rfl⟩ := List.mem_map.mp hr
    rw [hflags p hp]
    exact (extractRouteIsFeasible_iff p.1 p.2 (hmd p hp) (hmc p hp)).mpr (hroutes p hp)

/-- Internal bus, capacity 100, 8 h limit, 5 min service, no distance or
stop limit — the vehicle of the C6 counterexample. -/
def vehicleCfgTime : VehicleConfig :=
  { vehicleType := VehicleType.internalBus, capacity := 100, count := 1,
    maxTimeHours := 8, serviceTimeMinutes := 5 }

/-- The single customer of the C6 counterexample. -/
def custT : Customer := { id := 20, volume := 10 }

/-- Reconfiguration environment: one depot, one customer, 14265 s legs each
way, zero distances — so the recomputed route time is
14265 + 300 + 14265 = 28830 s = 480.5 min, half a minute over 8 h. -/
def envTime : ReconfigEnv :=
  { vcs := [vehicleCfgTime], uniqueDepots := [(0, 0)], customers := [custT],
    distances := fun _ _ => 0,
    durations := fun i j => if (i = 0 ∧ j = 1) ∨ (i = 1 ∧ j = 0) then 14265 else 0 }

/-- The route as extracted (its solver time, 480 min, is within limits, so
the extraction block marks it feasible). -/
def routeT : Route :=
  { vehicleType := VehicleType.internalBus, vehicleId := 0, customers := [custT],
    depotLocation := (0, 0), totalDistanceKm := 0, totalTimeMinutes := 480,
    totalVolume := 10, isFeasible := true }

/-- The same route after depot reconfiguration: recomputed time 480.5 min
and feasibility flag false (the re-validation uses the bound 480, without
the +1 allowance). -/
def routeTout : Route :=
  { vehicleType := VehicleType.internalBus, vehicleId := 0, customers := [custT],
    depotLocation := (0, 0), totalDistanceKm := 0, totalTimeMinutes := 961/2,
    totalVolume := 10, isFeasible := false }

/-- **C6 counterexample.**  With the final depot reconfiguration enabled,
the pipeline re-times the single route to 480.5 minutes — within the
claim's bound `60·8 + 1 = 481` and violating no other limit, and with no
dropped customer — yet the produced solution is marked infeasible, because
the post-reconfiguration validation drops the +1 allowance. -/
theorem extractFeasibility_counterexample :
    reconfigureRoutes envTime [routeT] = [routeTout] ∧
    routeTout.totalVolume ≤ (vehicleCfgTime.capacity : ℚ) ∧
    vehicleCfgTime.maxDistanceKm = none ∧
    vehicleCfgTime.maxCustomersPerRoute = none ∧
    routeTout.totalTimeMinutes ≤ ((vehicleCfgTime.maxTimeHours * 60 + 1 : ℤ) : ℚ) ∧
    solutionIsFeasible (reconfigureRoutes envTime [routeT]) [] = false := by
  have hmain : reconfigureRoutes envTime [routeT] = [routeTout] := by
    norm_num [reconfigureRoutes, reconfigureRoute, routeT, routeTout, envTime,
      optimizeRouteFromDepot, greedyOrderFuel, pickClosest1, customerMatrixIndex,
      calculateRouteFromDepot, routeLegs, baseServiceTime, List.find?, vehicleCfgTime,
      custT, volumeSum, vehicleConfigForId, vehicleConfigForIdAux, Option.orElse,
      validateReconfiguredRoute, truthy, truthyNat, List.indexOf, List.findIdx,
      List.findIdx.go]
  refine ⟨hmain, ?_, rfl, rfl, ?_, ?_⟩
  · norm_num [routeTout, vehicleCfgTime]
  · norm_num [routeTout, vehicleCfgTime]
  · rw [hmain]
    norm_num [solutionIsFeasible, routeTout]

/-- A route within every limit, flagged as the extraction block does, for
the C6 witness. -/
def routeGood : Route :=
  { vehicleType := VehicleType.internalBus, vehicleId := 0, customers := [custT],
    depotLocation := (0, 0), totalDistanceKm := 12, totalTimeMinutes := 480,
    totalVolume := 10, isFeasible := true }

/-- Witness for `extractFeasibility_spec`: a one-route solution within all
limits and with no dropped customers is flagged feasible. -/
theorem extractFeasibility_spec_witness :
    routeGood.isFeasible = extractRouteIsFeasible vehicleCfgTime routeGood ∧
    solutionIsFeasible [routeGood] [] = true := by
  have hflag : routeGood.isFeasible = extractRouteIsFeasible vehicleCfgTime routeGood := by
    norm_num [routeGood, extractRouteIsFeasible, vehicleCfgTime, truthy, truthyNat, custT]
  refine ⟨hflag, ?_⟩
  have hspec := extractFeasibility_spec [(vehicleCfgTime, routeGood)] []
    (by intro p hp; rw [List.mem_singleton.mp hp]; exact hflag)
    (by intro p hp; rw [List.mem_singleton.mp hp]; simp [vehicleCfgTime])
    (by intro p hp; rw [List.mem_singleton.mp hp]; simp [vehicleCfgTime])
  have : solutionIsFeasible (([(vehicleCfgTime, routeGood)]).map Prod.snd) [] = true := by
    rw [hspec]
    refine ⟨?_, rfl⟩
    intro p hp
    rw [List.mem_singleton.mp hp]
    refine ⟨by norm_num [routeGood, vehicleCfgTime], ?_, ?_, by norm_num [routeGood, vehicleCfgTime]⟩
    · intro d hd; exact absurd hd (by simp [vehicleCfgTime])
    · intro m hm; exact absurd hm (by simp [vehicleCfgTime])
  simpa using this

end Optiroute
